import Mathlib

/-!
Verification of the coordination core of a file-watching command executor
(`src/lib/src/run.rs`): the debouncer `wait_fs`, the `ExecHandler` policy
dispatch in `on_update`, and `ExecHandler::spawn`.

The embedding is shallow.  Filesystem paths are `String`s, the event channel
is a list of events each paired with its arrival delay (the time elapsed
between the previous successful receive and this event becoming available;
`0` means the event was already queued).  `recv()` in the acquisition phase
blocks, so delays are ignored there; an exhausted list there models a closed
channel.  `recv_timeout(d)` in the cool-off phase returns the next event
exactly when its delay is at most `d`: an already-queued message (delay `0`)
is drained before the deadline is checked, even when `d = 0`.

Process-control effects (clearing the screen, killing, signalling, waiting
on and launching the child) are modelled by an oracle `Effects` fixing the
outcome of each primitive, and every handler operation additionally returns
the trace of the process-control calls it performed, so that the policy
matrix can be stated as an equation on traces.  Locks are modelled as never
poisoned (the design assumes a single-threaded loop; poisoning requires a
panic elsewhere).
-/

/-- Signals, as used by the handler (`crate::signal::Signal`). Only the
identity of a signal matters to the core, so the type is a plain enum with a
numeric escape hatch. -/
inductive Signal where
  | SIGTERM
  | SIGKILL
  | SIGUSR1
  | SIGUSR2
  | SIGCHLD
  | num (n : Nat)
deriving DecidableEq, Repr

/-- Modelled from the spec: the `OpKind` bitset of `notify`/`pathop.rs`
(not under `src/`): flags `{CREATE, WRITE, REMOVE, RENAME, CHMOD, RESCAN,
META}`, each independently present or absent. -/
structure Op where
  create : Bool
  write : Bool
  remove : Bool
  rename : Bool
  chmod : Bool
  rescan : Bool
  meta : Bool
deriving DecidableEq, Repr

def Op.WRITE : Op := ⟨false, true, false, false, false, false, false⟩

def Op.CREATE : Op := ⟨true, false, false, false, false, false, false⟩

def Op.CHMOD : Op := ⟨false, false, false, false, true, false, false⟩

def Op.RENAME : Op := ⟨false, false, false, true, false, false, false⟩

def Op.META : Op := ⟨false, false, false, false, false, false, true⟩

/-- Modelled from the spec: `PathOp` (`pathop.rs`, not under `src/`):
`{ path, op: optional OpKind, cookie: optional u32 }`; equality and hashing
use all three fields. -/
structure PathOp where
  path : String
  op : Option Op
  cookie : Option Nat
deriving DecidableEq, Repr

/-- Modelled from the spec: `PathOp::new` (`pathop.rs`, not under `src/`)
packages the three fields. -/
def PathOp.new (path : String) (op : Option Op) (cookie : Option Nat) : PathOp :=
  ⟨path, op, cookie⟩

/-- Modelled from the spec: `PathOp::is_meta` (`pathop.rs`, not under
`src/`).  `META` marks metadata-only changes, and scenario S6 of the spec
treats a CHMOD-only event as suppressed under `no_meta`; an op is meta
exactly when it carries none of the modification flags
(CREATE, WRITE, REMOVE, RENAME). -/
def PathOp.is_meta (op : Op) : Bool :=
  !op.create && !op.write && !op.remove && !op.rename

/-- A PathOp is "META only" when it has an op and that op is meta.  Used to
state the meta-suppression claims. -/
def PathOp.metaOnly (p : PathOp) : Bool :=
  match p.op with
  | some op => PathOp.is_meta op
  | none => false

/-- An `Event` as produced by the watcher backend (§3 of the spec).  The
`op` field models `e.op.ok()`: a backend error in the `op` slot of the Rust
`Result` becomes `none`. -/
structure Event where
  path : Option String
  op : Option Op
  cookie : Option Nat
deriving DecidableEq, Repr

/-- The debouncer's local `cache: HashMap<PathOp, bool>`, as an association
list; only `contains_key` and `insert` are used by `wait_fs`. -/
abbrev Cache := List (PathOp × Bool)

/-- `cache.contains_key(&pathop)`. -/
def Cache.containsKey (c : Cache) (p : PathOp) : Bool :=
  c.any (fun kv => decide (kv.1 = p))

/-- Outcome of `wait_fs`: either a batch of path operations, or a panic
raised by the `expect` on a failed channel receive. -/
inductive WaitResult where
  | batch (paths : List PathOp)
  | panicked (msg : String)
deriving DecidableEq, Repr

/-- Phase A (acquisition) of `wait_fs` (`run.rs` lines 370-393): block on
`rx.recv()` until one non-excluded, non-meta-filtered event with a path has
arrived.  The input list being exhausted models the channel being closed
while still blocked, on which `recv()` errors and the `expect` panics
(`none`).  On success, returns the grown `paths` vector, the cache, and the
events still unread. -/
def phaseA (f : String → Bool) (m : Bool) :
    List (Nat × Event) → Cache → List PathOp →
      Option (List PathOp × Cache × List (Nat × Event))
  | [], _, _ => none
  | (_, e) :: rest, cache, paths =>
    match e.path with
    | none => phaseA f m rest cache paths
    | some path =>
      let pathop := PathOp.new path e.op e.cookie
      if (match pathop.op with
          | some op => m && PathOp.is_meta op
          | none => false) then
        phaseA f m rest cache paths
      else
        let excluded := f path
        let cache1 := if cache.containsKey pathop then cache else (pathop, excluded) :: cache
        if !excluded then some (paths ++ [pathop], cache1, rest)
        else phaseA f m rest cache1 paths

/-- Phase B (cool-off) of `wait_fs` (`run.rs` lines 396-411): drain the
channel with `rx.recv_timeout(debounce)` until a receive times out (the next
event's arrival delay exceeds `debounce`) or the channel is closed (list
exhausted; `recv_timeout` errors end the `while let` normally).  Note there
is no `no_meta` check in this phase. -/
def phaseB (f : String → Bool) (debounce : Nat) :
    List (Nat × Event) → Cache → List PathOp → List PathOp
  | [], _, paths => paths
  | (delay, e) :: rest, cache, paths =>
    if debounce < delay then paths
    else
      match e.path with
      | none => phaseB f debounce rest cache paths
      | some path =>
        let pathop := PathOp.new path e.op e.cookie
        if cache.containsKey pathop then phaseB f debounce rest cache paths
        else
          let excluded := f path
          if !excluded then phaseB f debounce rest ((pathop, excluded) :: cache) (paths ++ [pathop])
          else phaseB f debounce rest ((pathop, excluded) :: cache) paths

/-- `wait_fs(rx, filter, debounce, no_meta)` (`run.rs` lines 361-414).  The
filter is the pure predicate `NotificationFilter::is_excluded` (§4.2 of the
spec: referentially transparent after construction). -/
def wait_fs (events : List (Nat × Event)) (f : String → Bool) (debounce : Nat)
    (no_meta : Bool) : WaitResult :=
  match phaseA f no_meta events [] [] with
  | none => .panicked "error when reading event"
  | some (paths, cache, rest) => .batch (phaseB f debounce rest cache paths)

example :
    wait_fs [(0, ⟨some "a", some Op.WRITE, none⟩), (0, ⟨some "b", some Op.CREATE, none⟩)]
      (fun _ => false) 5 false =
      .batch [PathOp.new "a" (some Op.WRITE) none, PathOp.new "b" (some Op.CREATE) none] := by
  decide

/-- `OnBusyUpdate` (`run.rs` lines 27-40): behaviour when an update arrives
while the command is running.  Default is `DoNothing`. -/
inductive OnBusyUpdate where
  | DoNothing
  | Queue
  | Restart
  | Signal
deriving DecidableEq, Repr

/-- `ChildProcess` (`run.rs` lines 147-152): the guarded child slot.  The
native handles are abstracted to a numeric process id. -/
inductive ChildProcess where
  | none
  | grouped (id : Nat)
  | ungrouped (id : Nat)
deriving DecidableEq, Repr

/-- Error kinds of the core (`error.rs` is not under `src/`; the
constructors follow §7 of the spec, plus `Io` for raw io errors bubbled out
of child-process primitives). -/
inductive Error where
  | Canonicalization
  | BackendInit
  | BackendReceive
  | SpawnFailed
  | SignalFailure
  | LockPoisoned
  | ClearScreen
  | Io
deriving DecidableEq, Repr

/-- Oracle fixing the outcome of each OS-effecting primitive during one
handler operation, so the handlers stay pure functions. -/
structure Effects where
  clearOk : Bool
  launchOk : Bool
  signalOk : Bool
  waitOk : Bool
  killOk : Bool
  newId : Nat
deriving DecidableEq, Repr

/-- Trace entries: the process-control calls the handler performs, in order.
`signal`, `wait` and `kill` record invocations of `signal_process`,
`wait_on_process` and `ChildProcess::kill`; `launch` records the
`command.spawn()` / `command.group_spawn()` attempt with the ops the command
environment is enriched from; `clear` records `clearscreen::clear()`. -/
inductive Call where
  | clear
  | kill
  | launch (ops : List PathOp)
  | signal (sig : Signal)
  | wait
deriving DecidableEq, Repr

/-- The fields of `Config` consulted by the modelled handler operations,
together with the handler's `signal` field (`signal::new(args.signal)`: the
signal parsed once from the configured name, `none` when the user chose
none). -/
structure HandlerCfg where
  once : Bool
  clear_screen : Bool
  use_process_group : Bool
  on_busy_update : OnBusyUpdate
  signal : Option Signal
deriving DecidableEq, Repr

/-- `ChildProcess::signal` (`run.rs` lines 162-175): dispatch a signal to
the group or leader; `None` is a no-op returning `Ok`. -/
def ChildProcess.sendSignal (fx : Effects) (c : ChildProcess) : Except Error Unit :=
  match c with
  | .none => .ok ()
  | .grouped _ => if fx.signalOk then .ok () else .error .SignalFailure
  | .ungrouped _ => if fx.signalOk then .ok () else .error .SignalFailure

/-- `ChildProcess::kill` (`run.rs` lines 177-190): terminate the group or
leader; `None` is a no-op returning `Ok`. -/
def ChildProcess.kill (fx : Effects) (c : ChildProcess) : Except Error Unit :=
  match c with
  | .none => .ok ()
  | .grouped _ => if fx.killOk then .ok () else .error .Io
  | .ungrouped _ => if fx.killOk then .ok () else .error .Io

/-- `ChildProcess::wait` (`run.rs` lines 201-208): block until the child
exits, dropping the exit status; `None` is a no-op returning `Ok`. -/
def ChildProcess.waitOn (fx : Effects) (c : ChildProcess) : Except Error Unit :=
  match c with
  | .none => .ok ()
  | .grouped _ => if fx.waitOk then .ok () else .error .Io
  | .ungrouped _ => if fx.waitOk then .ok () else .error .Io

/-- `signal_process` (`run.rs` lines 416-430), unix path: lock the slot and
`child.signal(signal)?`.  The slot variant is not modified.  Returns the
result and the trace of the call. -/
def signal_process (fx : Effects) (slot : ChildProcess) (sig : Signal) :
    Except Error Unit × List Call :=
  (slot.sendSignal fx, [Call.signal sig])

/-- `wait_on_process` (`run.rs` lines 432-437): lock the slot and wait. -/
def wait_on_process (fx : Effects) (slot : ChildProcess) :
    Except Error Unit × List Call :=
  (slot.waitOn fx, [Call.wait])

/-- `ExecHandler::spawn` (`run.rs` lines 254-280): clear the screen when
configured (`?` propagates a failure before the slot is touched); lock the
slot; `child.kill().ok()` (result discarded); assemble the command and, when
`no_environment` is unset, enrich its environment from `ops` (pure and
infallible, folded into the `launch` action); then
`*child = Grouped(group_spawn()?)` or `Ungrouped(spawn()?)`: on launch
failure the `?` propagates before the assignment, leaving the slot holding
the old, already-killed variant. -/
def ExecHandler.spawn (cfg : HandlerCfg) (fx : Effects) (ops : List PathOp)
    (slot : ChildProcess) : Except Error Unit × ChildProcess × List Call :=
  if cfg.clear_screen && !fx.clearOk then
    (.error .ClearScreen, slot, [Call.clear])
  else
    let t := (if cfg.clear_screen then [Call.clear] else []) ++ [Call.kill, Call.launch ops]
    let _killResult := slot.kill fx
    if fx.launchOk then
      (.ok (), (if cfg.use_process_group then .grouped fx.newId else .ungrouped fx.newId), t)
    else
      (.error .SpawnFailed, slot, t)

/-- The `match (has_running_processes, self.args.on_busy_update)` dispatch
of `ExecHandler::on_update` (`run.rs` lines 317-340), with
`signal = self.signal.unwrap_or(Signal::SIGTERM)` from line 308.  `running`
is the value returned by `has_running_process()` on line 309. -/
def on_update_dispatch (cfg : HandlerCfg) (fx : Effects) (ops : List PathOp)
    (running : Bool) (slot : ChildProcess) :
    Except Error Unit × ChildProcess × List Call :=
  let signal := cfg.signal.getD Signal.SIGTERM
  match running, cfg.on_busy_update with
  | false, _ => ExecHandler.spawn cfg fx ops slot
  | true, .Signal =>
    let (r, t) := signal_process fx slot signal
    (r, slot, t)
  | true, .Restart =>
    match signal_process fx slot signal with
    | (.error e, t) => (.error e, slot, t)
    | (.ok _, t) =>
      match wait_on_process fx slot with
      | (.error e, t2) => (.error e, slot, t ++ t2)
      | (.ok _, t2) =>
        let (r, slot2, t3) := ExecHandler.spawn cfg fx ops slot
        (r, slot2, t ++ t2 ++ t3)
  | true, .Queue =>
    match wait_on_process fx slot with
    | (.error e, t) => (.error e, slot, t)
    | (.ok _, t) =>
      let (r, slot2, t2) := ExecHandler.spawn cfg fx ops slot
      (r, slot2, t ++ t2)
  | true, .DoNothing => (.ok (), slot, [])

/-- The `once` tail of `ExecHandler::on_update` (`run.rs` lines 343-351):
`if let Some(signal) = self.signal { signal_process(..)?; }` — note the
configured signal only, no `SIGTERM` fallback — then `wait_on_process(..)?`,
then `Ok(false)`. -/
def on_update_once (cfg : HandlerCfg) (fx : Effects) (slot : ChildProcess) :
    Except Error Bool × List Call :=
  match cfg.signal with
  | some s =>
    match signal_process fx slot s with
    | (.error e, t) => (.error e, t)
    | (.ok _, t) =>
      match wait_on_process fx slot with
      | (.error e, t2) => (.error e, t ++ t2)
      | (.ok _, t2) => (.ok false, t ++ t2)
  | none =>
    match wait_on_process fx slot with
    | (.error e, t) => (.error e, t)
    | (.ok _, t) => (.ok false, t)

/-- `ExecHandler::on_update` (`run.rs` lines 305-354): the policy dispatch,
then, when `once` is set, the once tail ending in `Ok(false)`; otherwise
`Ok(true)`. -/
def ExecHandler.on_update (cfg : HandlerCfg) (fx : Effects) (ops : List PathOp)
    (running : Bool) (slot : ChildProcess) :
    Except Error Bool × ChildProcess × List Call :=
  match on_update_dispatch cfg fx ops running slot with
  | (.error e, slot2, t) => (.error e, slot2, t)
  | (.ok _, slot2, t) =>
    if cfg.once then
      let (r, t2) := on_update_once cfg fx slot2
      (r, slot2, t ++ t2)
    else
      (.ok true, slot2, t)

/-- The watch loop's continuation test (`run.rs` line 139):
`if !handler.on_update(&paths)? { break; }` — the loop continues exactly on
`Ok(true)`; `Ok(false)` breaks and `Err` aborts. -/
def loop_continues : Except Error Bool → Bool
  | .ok b => b
  | .error _ => false

/-- The spec's policy matrix (§4.5), written from the spec's words as the
expected trace of process-control calls: with
`sig = configured_signal.unwrap_or(SIGTERM)`, not running means spawn;
running and `Signal` means signal only; `Restart` means signal, wait, spawn;
`Queue` means wait, spawn; `DoNothing` means nothing. -/
def policy_matrix (cfg : HandlerCfg) (ops : List PathOp) (running : Bool) : List Call :=
  let sig := cfg.signal.getD Signal.SIGTERM
  let spawnTrace :=
    (if cfg.clear_screen then [Call.clear] else []) ++ [Call.kill, Call.launch ops]
  match running, cfg.on_busy_update with
  | false, _ => spawnTrace
  | true, .Signal => [Call.signal sig]
  | true, .Restart => [Call.signal sig, Call.wait] ++ spawnTrace
  | true, .Queue => [Call.wait] ++ spawnTrace
  | true, .DoNothing => []

theorem Cache.containsKey_self (c : Cache) (p : PathOp) (x : Bool) :
    Cache.containsKey ((p, x) :: c) p = true := by
  simp [Cache.containsKey]

theorem Cache.containsKey_cons_of (c : Cache) (kv : PathOp × Bool) (p : PathOp)
    (h : c.containsKey p = true) : Cache.containsKey (kv :: c) p = true := by
  simp only [Cache.containsKey, List.any_cons, Bool.or_eq_true]
  exact Or.inr h

theorem Cache.containsKey_insertIfAbsent (c : Cache) (p : PathOp) (x : Bool) :
    Cache.containsKey (if c.containsKey p then c else (p, x) :: c) p = true := by
  split
  · assumption
  · exact Cache.containsKey_self c p x

/-- Everything Phase A establishes when entered with an empty `paths` vector
(as `wait_fs` enters it): on success the vector holds exactly one PathOp,
that PathOp is in the final cache, is not excluded by the filter, is not
meta-only when `no_meta` is set, and the unread events form a sublist of the
input. -/
theorem phaseA_spec (f : String → Bool) (m : Bool) :
    ∀ (evs : List (Nat × Event)) (cache : Cache) (ps : List PathOp) (c : Cache)
      (r : List (Nat × Event)),
      phaseA f m evs cache [] = some (ps, c, r) →
      ∃ p, ps = [p] ∧ c.containsKey p = true ∧ r.Sublist evs ∧
        f p.path = false ∧ (m = true → p.metaOnly = false) := by
  intro evs
  induction evs with
  | nil => intro cache ps c r h; simp [phaseA] at h
  | cons te rest ih =>
    intro cache ps c r h
    obtain ⟨d, e⟩ := te
    rw [phaseA] at h
    cases hp : e.path with
    | none =>
      rw [hp] at h
      obtain ⟨p, h1, h2, h3, h4, h5⟩ := ih cache ps c r h
      exact ⟨p, h1, h2, List.Sublist.cons _ h3, h4, h5⟩
    | some path =>
      rw [hp] at h
      simp only at h
      split at h
      · obtain ⟨p, h1, h2, h3, h4, h5⟩ := ih cache ps c r h
        exact ⟨p, h1, h2, List.Sublist.cons _ h3, h4, h5⟩
      · rename_i hmeta
        split at h
        · rename_i hexcl
          injection h with h
          injection h with hps h
          injection h with hc hr
          refine ⟨PathOp.new path e.op e.cookie, by simpa using hps.symm, ?_, ?_, ?_, ?_⟩
          · rw [← hc]; exact Cache.containsKey_insertIfAbsent cache _ _
          · rw [← hr]; exact List.Sublist.cons _ (List.Sublist.refl rest)
          · simpa using hexcl
          · intro hm
            simp only [PathOp.metaOnly, PathOp.new]
            cases hop : e.op with
            | none => rfl
            | some op =>
              simp only [PathOp.new, hop, hm, Bool.true_and] at hmeta
              simpa using hmeta
        · obtain ⟨p, h1, h2, h3, h4, h5⟩ := ih _ ps c r h
          exact ⟨p, h1, h2, List.Sublist.cons _ h3, h4, h5⟩

/-- Phase B only ever appends: the incoming vector is a prefix of the
result. -/
theorem phaseB_prefix (f : String → Bool) (d : Nat) :
    ∀ (evs : List (Nat × Event)) (cache : Cache) (paths : List PathOp),
      paths <+: phaseB f d evs cache paths := by
  intro evs
  induction evs with
  | nil => intro cache paths; rw [phaseB]
  | cons te rest ih =>
    intro cache paths
    obtain ⟨delay, e⟩ := te
    rw [phaseB]
    split
    · exact List.prefix_refl _
    · cases hp : e.path with
      | none => exact ih cache paths
      | some path =>
        simp only
        split
        · exact ih cache paths
        · split
          · exact List.IsPrefix.trans (List.prefix_append _ _) (ih _ _)
          · exact ih _ _

/-- Phase B never appends an excluded PathOp. -/
theorem phaseB_excluded (f : String → Bool) (d : Nat) :
    ∀ (evs : List (Nat × Event)) (cache : Cache) (paths : List PathOp),
      (∀ q ∈ paths, f q.path = false) →
      ∀ q ∈ phaseB f d evs cache paths, f q.path = false := by
  intro evs
  induction evs with
  | nil => intro cache paths hp; rw [phaseB]; exact hp
  | cons te rest ih =>
    intro cache paths hp
    obtain ⟨delay, e⟩ := te
    rw [phaseB]
    split
    · exact hp
    · cases hq : e.path with
      | none => exact ih cache paths hp
      | some path =>
        simp only
        split
        · exact ih cache paths hp
        · split
          · rename_i hexcl
            refine ih _ _ ?_
            intro q hq
            rcases List.mem_append.1 hq with hq | hq
            · exact hp q hq
            · rw [List.mem_singleton.1 hq]
              simpa using hexcl
          · exact ih _ _ hp

/-- Phase B preserves the invariant that the accumulated vector has no
duplicates and every element of it is a cache key, so the final vector has
no duplicates. -/
theorem phaseB_nodup (f : String → Bool) (d : Nat) :
    ∀ (evs : List (Nat × Event)) (cache : Cache) (paths : List PathOp),
      paths.Nodup → (∀ q ∈ paths, cache.containsKey q = true) →
      (phaseB f d evs cache paths).Nodup := by
  intro evs
  induction evs with
  | nil => intro cache paths hnd _; rw [phaseB]; exact hnd
  | cons te rest ih =>
    intro cache paths hnd hsub
    obtain ⟨delay, e⟩ := te
    rw [phaseB]
    split
    · exact hnd
    · cases hq : e.path with
      | none => exact ih cache paths hnd hsub
      | some path =>
        simp only
        split
        · exact ih cache paths hnd hsub
        · rename_i hnotin
          split
          · refine ih _ _ ?_ ?_
            · have hpn : PathOp.new path e.op e.cookie ∉ paths := by
                intro hmem
                rw [hsub _ hmem] at hnotin
                exact hnotin rfl
              simp [List.nodup_append, hnd, hpn]
            · intro q hqm
              rcases List.mem_append.1 hqm with hqm | hqm
              · exact Cache.containsKey_cons_of _ _ _ (hsub q hqm)
              · rw [List.mem_singleton.1 hqm]
                exact Cache.containsKey_self _ _ _
          · refine ih _ _ hnd ?_
            intro q hqm
            exact Cache.containsKey_cons_of _ _ _ (hsub q hqm)

/-- The trivial filter: nothing is excluded. -/
def exclNone : String → Bool := fun _ => false

/-- A filter excluding exactly the path `"b"`. -/
def exclOnlyB : String → Bool := fun s => decide (s = "b")

/-- Decomposition of a successful `wait_fs` run: Phase A produced a
singleton vector whose element is cached, unexcluded, and (under `no_meta`)
not meta-only, and the batch is Phase B run on the unread remainder. -/
theorem wait_fs_batch_elim (events : List (Nat × Event)) (f : String → Bool)
    (d : Nat) (m : Bool) (ps : List PathOp)
    (h : wait_fs events f d m = .batch ps) :
    ∃ p cache rest, phaseA f m events [] [] = some ([p], cache, rest) ∧
      ps = phaseB f d rest cache [p] ∧ cache.containsKey p = true ∧
      rest.Sublist events ∧ f p.path = false ∧ (m = true → p.metaOnly = false) := by
  unfold wait_fs at h
  cases hA : phaseA f m events [] [] with
  | none => rw [hA] at h; exact absurd h (by simp)
  | some v =>
    obtain ⟨paths, cache, rest⟩ := v
    rw [hA] at h
    injection h with h
    obtain ⟨p, hp, hc, hsub, hf, hm⟩ := phaseA_spec f m events [] paths cache rest hA
    subst hp
    exact ⟨p, cache, rest, rfl, h.symm, hc, hsub, hf, hm⟩

/-- C3: for every input event sequence on which `wait_fs` returns a batch
(the channel was not closed before an accepted event arrived), the returned
vector is non-empty: Phase A admits exactly one accepted event before the
cool-off phase, and the cool-off phase only appends. -/
theorem C3_nonempty_batch (events : List (Nat × Event)) (f : String → Bool)
    (d : Nat) (m : Bool) (ps : List PathOp)
    (h : wait_fs events f d m = .batch ps) : ps ≠ [] := by
  obtain ⟨p, cache, rest, _, hps, _, _, _, _⟩ := wait_fs_batch_elim events f d m ps h
  obtain ⟨t, ht⟩ := phaseB_prefix f d rest cache [p]
  rw [hps, ← ht]
  simp

/-- Witness for C3 at a concrete input. -/
theorem C3_witness :
    wait_fs [(0, ⟨some "a", some Op.WRITE, none⟩)] exclNone 0 false =
      .batch [PathOp.new "a" (some Op.WRITE) none] ∧
    [PathOp.new "a" (some Op.WRITE) none] ≠ [] :=
  ⟨by decide,
    C3_nonempty_batch [(0, ⟨some "a", some Op.WRITE, none⟩)] exclNone 0 false
      [PathOp.new "a" (some Op.WRITE) none] (by decide)⟩

/-- C4: every PathOp in the vector returned by `wait_fs` has a path the
(pure) filter does not exclude, in both the acquisition and the cool-off
phase. -/
theorem C4_no_excluded_in_batch (events : List (Nat × Event)) (f : String → Bool)
    (d : Nat) (m : Bool) (ps : List PathOp)
    (h : wait_fs events f d m = .batch ps) :
    ∀ q, q ∈ ps → f q.path = false := by
  obtain ⟨p, cache, rest, _, hps, _, _, hf, _⟩ := wait_fs_batch_elim events f d m ps h
  rw [hps]
  intro q hq
  refine phaseB_excluded f d rest cache [p] ?_ q hq
  intro q' hq'
  rw [List.mem_singleton.1 hq']
  exact hf

/-- Witness for C4 at a concrete input: with a filter excluding `"b"`, a
batch built from events on `"a"` and `"b"` contains the `"a"` PathOp, and
the filter does not exclude its path. -/
theorem C4_witness :
    wait_fs [(0, ⟨some "a", some Op.WRITE, none⟩), (0, ⟨some "b", some Op.WRITE, none⟩)]
        exclOnlyB 5 false = .batch [PathOp.new "a" (some Op.WRITE) none] ∧
    PathOp.new "a" (some Op.WRITE) none ∈ [PathOp.new "a" (some Op.WRITE) none] ∧
    exclOnlyB (PathOp.new "a" (some Op.WRITE) none).path = false :=
  ⟨by decide, by decide,
    C4_no_excluded_in_batch
      [(0, ⟨some "a", some Op.WRITE, none⟩), (0, ⟨some "b", some Op.WRITE, none⟩)]
      exclOnlyB 5 false [PathOp.new "a" (some Op.WRITE) none] (by decide)
      (PathOp.new "a" (some Op.WRITE) none) (by decide)⟩

/-- C5: no PathOp value (equality on all three fields) appears more than
once in a returned batch, while two events in one window with the same path
but different ops, or different cookies, both appear as their own entries:
the first conjunct is the general dedup theorem, the last two run the
distinct-op and distinct-cookie windows concretely. -/
theorem C5_no_duplicate_pathops :
    (∀ (events : List (Nat × Event)) (f : String → Bool) (d : Nat) (m : Bool)
      (ps : List PathOp), wait_fs events f d m = .batch ps → ps.Nodup) ∧
    wait_fs [(0, ⟨some "a", some Op.WRITE, none⟩), (0, ⟨some "a", some Op.CREATE, none⟩)]
        exclNone 5 false =
      .batch [PathOp.new "a" (some Op.WRITE) none, PathOp.new "a" (some Op.CREATE) none] ∧
    wait_fs [(0, ⟨some "r", some Op.RENAME, some 1⟩), (0, ⟨some "r", some Op.RENAME, some 2⟩)]
        exclNone 5 false =
      .batch [PathOp.new "r" (some Op.RENAME) (some 1), PathOp.new "r" (some Op.RENAME) (some 2)] := by
  refine ⟨?_, by decide, by decide⟩
  intro events f d m ps h
  obtain ⟨p, cache, rest, _, hps, hc, _, _, _⟩ := wait_fs_batch_elim events f d m ps h
  rw [hps]
  refine phaseB_nodup f d rest cache [p] (by simp) ?_
  intro q hq
  rw [List.mem_singleton.1 hq]
  exact hc

/-- Witness for C5: the dedup conjunct applied at a concrete run where the
backend reports the same PathOp twice. -/
theorem C5_witness :
    wait_fs [(0, ⟨some "a", some Op.WRITE, none⟩), (0, ⟨some "a", some Op.WRITE, none⟩)]
        exclNone 5 false = .batch [PathOp.new "a" (some Op.WRITE) none] ∧
    [PathOp.new "a" (some Op.WRITE) none].Nodup :=
  ⟨by decide,
    C5_no_duplicate_pathops.1
      [(0, ⟨some "a", some Op.WRITE, none⟩), (0, ⟨some "a", some Op.WRITE, none⟩)]
      exclNone 5 false [PathOp.new "a" (some Op.WRITE) none] (by decide)⟩

/-- Counterexample to C2 as stated: with `no_meta = true`, an accepted WRITE
event followed by a META-only event that arrives during the cool-off phase
yields a batch containing the META-only PathOp, because the cool-off loop of
`wait_fs` (`run.rs` lines 396-411) performs no meta check — only the
acquisition loop does (line 376). -/
theorem C2_counterexample :
    wait_fs [(0, ⟨some "a", some Op.WRITE, none⟩), (0, ⟨some "b", some Op.META, none⟩)]
        exclNone 5 true =
      .batch [PathOp.new "a" (some Op.WRITE) none, PathOp.new "b" (some Op.META) none] ∧
    PathOp.new "b" (some Op.META) none ∈
      [PathOp.new "a" (some Op.WRITE) none, PathOp.new "b" (some Op.META) none] ∧
    (PathOp.new "b" (some Op.META) none).metaOnly = true := by
  refine ⟨by decide, by decide, by decide⟩

/-- C2 (amended): when `no_meta` is true, meta-only events are suppressed
during acquisition (Phase A), so the PathOp that opens the batch is never
meta-only and the CHMOD-then-WRITE scenario S6 yields only the WRITE PathOp;
but META-only events arriving during the cool-off phase (Phase B) are not
filtered and may appear in the returned vector. -/
theorem C2_meta_suppression_phaseA :
    (∀ (events : List (Nat × Event)) (f : String → Bool) (d : Nat)
      (ps : List PathOp) (p : PathOp),
      wait_fs events f d true = .batch ps → ps.head? = some p →
        p.metaOnly = false) ∧
    wait_fs [(0, ⟨some "a", some Op.CHMOD, none⟩), (0, ⟨some "a", some Op.WRITE, none⟩)]
        exclNone 5 true = .batch [PathOp.new "a" (some Op.WRITE) none] := by
  refine ⟨?_, by decide⟩
  intro events f d ps p h hhd
  obtain ⟨q, cache, rest, _, hps, _, _, _, hm⟩ := wait_fs_batch_elim events f d true ps h
  obtain ⟨t, ht⟩ := phaseB_prefix f d rest cache [q]
  rw [hps, ← ht] at hhd
  simp only [List.singleton_append, List.head?_cons, Option.some.injEq] at hhd
  rw [← hhd]
  exact hm rfl

/-- Witness for the amended C2 at a concrete input. -/
theorem C2_witness :
    wait_fs [(0, ⟨some "a", some Op.WRITE, none⟩)] exclNone 0 true =
      .batch [PathOp.new "a" (some Op.WRITE) none] ∧
    [PathOp.new "a" (some Op.WRITE) none].head? = some (PathOp.new "a" (some Op.WRITE) none) ∧
    (PathOp.new "a" (some Op.WRITE) none).metaOnly = false :=
  ⟨by decide, by decide,
    C2_meta_suppression_phaseA.1 [(0, ⟨some "a", some Op.WRITE, none⟩)] exclNone 0
      [PathOp.new "a" (some Op.WRITE) none] (PathOp.new "a" (some Op.WRITE) none)
      (by decide) (by decide)⟩

/-- Counterexample to C7 as stated: on a closed channel `wait_fs` panics via
the `expect` on `rx.recv()` (`run.rs` line 371) with the message
`"error when reading event"`; no `BackendReceive` error value is constructed
and the enclosing watch loop never observes the failure as an `Err`. -/
theorem C7_counterexample :
    wait_fs [] exclNone 0 false = .panicked "error when reading event" := rfl

/-- C7 (amended): a receive failure during acquisition is never surfaced to
the enclosing loop as an error value; the only outcomes of `wait_fs` are a
batch or the panic raised by the `expect` on `rx.recv()`. -/
theorem C7_receive_failure_panics (events : List (Nat × Event)) (f : String → Bool)
    (d : Nat) (m : Bool) :
    (∃ ps, wait_fs events f d m = .batch ps) ∨
      wait_fs events f d m = .panicked "error when reading event" := by
  unfold wait_fs
  cases hA : phaseA f m events [] [] with
  | none => exact Or.inr rfl
  | some v =>
    obtain ⟨paths, cache, rest⟩ := v
    exact Or.inl ⟨phaseB f d rest cache paths, rfl⟩

/-- Counterexample to C8 as stated: with `debounce = 0` and a second
accepted event already queued on the channel (arrival delay `0`),
`recv_timeout(0)` still drains it — the std receiver returns an available
message before checking the deadline — so the batch has size 2, not 1. -/
theorem C8_counterexample :
    wait_fs [(0, ⟨some "a", some Op.WRITE, none⟩), (0, ⟨some "b", some Op.WRITE, none⟩)]
        exclNone 0 false =
      .batch [PathOp.new "a" (some Op.WRITE) none, PathOp.new "b" (some Op.WRITE) none] ∧
    [PathOp.new "a" (some Op.WRITE) none, PathOp.new "b" (some Op.WRITE) none].length = 2 := by
  refine ⟨by decide, by decide⟩

/-- C8 (amended): when `debounce` is zero, the cool-off phase returns as
soon as the channel is momentarily empty; if no event arrives with zero
delay (every arrival delay is at least 1), the batch has size exactly 1.
Events already queued at zero delay are still drained and may enlarge the
batch. -/
theorem C8_zero_debounce_single (events : List (Nat × Event)) (f : String → Bool)
    (m : Bool) (ps : List PathOp)
    (hdelay : events.all (fun te => decide (1 ≤ te.1)) = true)
    (h : wait_fs events f 0 m = .batch ps) : ps.length = 1 := by
  obtain ⟨p, cache, rest, _, hps, _, hsub, _, _⟩ := wait_fs_batch_elim events f 0 m ps h
  rw [hps]
  cases rest with
  | nil => rw [phaseB]; rfl
  | cons te r =>
    obtain ⟨d0, e0⟩ := te
    have hmem : (d0, e0) ∈ events := hsub.subset (List.mem_cons_self _ _)
    have hd0 : 0 < d0 := by
      have := List.all_eq_true.1 hdelay _ hmem
      simpa using this
    rw [phaseB, if_pos hd0]
    rfl

/-- Witness for the amended C8 at a concrete input: one event, the next
arrival 5 time units later, `debounce = 0`. -/
theorem C8_witness :
    [((5 : Nat), (⟨some "a", some Op.WRITE, none⟩ : Event))].all
        (fun te => decide (1 ≤ te.1)) = true ∧
    wait_fs [(5, ⟨some "a", some Op.WRITE, none⟩)] exclNone 0 false =
      .batch [PathOp.new "a" (some Op.WRITE) none] ∧
    [PathOp.new "a" (some Op.WRITE) none].length = 1 :=
  ⟨by decide, by decide,
    C8_zero_debounce_single [(5, ⟨some "a", some Op.WRITE, none⟩)] exclNone false
      [PathOp.new "a" (some Op.WRITE) none] (by decide) (by decide)⟩

theorem ChildProcess.sendSignal_ok (fx : Effects) (slot : ChildProcess)
    (h : fx.signalOk = true) : slot.sendSignal fx = .ok () := by
  cases slot <;> simp [ChildProcess.sendSignal, h]

theorem ChildProcess.waitOn_ok (fx : Effects) (slot : ChildProcess)
    (h : fx.waitOk = true) : slot.waitOn fx = .ok () := by
  cases slot <;> simp [ChildProcess.waitOn, h]

theorem spawn_eq (cfg : HandlerCfg) (fx : Effects) (ops : List PathOp)
    (slot : ChildProcess) (h1 : fx.clearOk = true) (h2 : fx.launchOk = true) :
    ExecHandler.spawn cfg fx ops slot =
      (.ok (), (if cfg.use_process_group then .grouped fx.newId else .ungrouped fx.newId),
        (if cfg.clear_screen then [Call.clear] else []) ++ [Call.kill, Call.launch ops]) := by
  unfold ExecHandler.spawn
  rw [h1, h2]
  simp

/-- When every OS primitive succeeds, the dispatch returns `Ok`, leaves the
slot alone exactly in the `Signal` and `DoNothing` busy cases, and performs
exactly the calls of the spec's policy matrix. -/
theorem dispatch_eq (cfg : HandlerCfg) (fx : Effects) (ops : List PathOp)
    (running : Bool) (slot : ChildProcess)
    (h1 : fx.clearOk = true) (h2 : fx.launchOk = true)
    (h3 : fx.signalOk = true) (h4 : fx.waitOk = true) :
    on_update_dispatch cfg fx ops running slot =
      (.ok (),
        (match running, cfg.on_busy_update with
         | true, .Signal => slot
         | true, .DoNothing => slot
         | _, _ => if cfg.use_process_group then .grouped fx.newId else .ungrouped fx.newId),
        policy_matrix cfg ops running) := by
  cases running <;> cases hbusy : cfg.on_busy_update <;>
    simp [on_update_dispatch, policy_matrix, spawn_eq cfg fx ops slot h1 h2,
      signal_process, wait_on_process, ChildProcess.sendSignal_ok fx slot h3,
      ChildProcess.waitOn_ok fx slot h4, hbusy]

/-- When signalling and waiting succeed, the once tail delivers the
configured signal exactly when one exists, waits, and returns `Ok(false)`. -/
theorem once_eq (cfg : HandlerCfg) (fx : Effects) (slot : ChildProcess)
    (h3 : fx.signalOk = true) (h4 : fx.waitOk = true) :
    on_update_once cfg fx slot =
      (.ok false,
        (match cfg.signal with | some s => [Call.signal s] | none => []) ++ [Call.wait]) := by
  cases hsig : cfg.signal <;>
    simp [on_update_once, signal_process, wait_on_process, hsig,
      ChildProcess.sendSignal_ok fx slot h3, ChildProcess.waitOn_ok fx slot h4]

/-- C1: for every call to `on_update`, with `sig` the configured signal or
`SIGTERM` if none is configured, and all OS primitives succeeding, the
dispatch follows the policy matrix exactly: no running child means spawn
with the given ops regardless of policy; with a running child, `Signal`
sends `sig` only, `Restart` sends `sig`, waits, then spawns, `Queue` waits
then spawns with no signal sent, and `DoNothing` performs no action. -/
theorem C1_policy_matrix_dispatch (cfg : HandlerCfg) (fx : Effects)
    (ops : List PathOp) (running : Bool) (slot : ChildProcess)
    (h1 : fx.clearOk = true) (h2 : fx.launchOk = true)
    (h3 : fx.signalOk = true) (h4 : fx.waitOk = true) :
    (on_update_dispatch cfg fx ops running slot).2.2 = policy_matrix cfg ops running ∧
    (on_update_dispatch cfg fx ops running slot).1 = .ok () := by
  rw [dispatch_eq cfg fx ops running slot h1 h2 h3 h4]
  exact ⟨rfl, rfl⟩

/-- Effects oracle on which every OS primitive succeeds. -/
def fxAll : Effects := ⟨true, true, true, true, true, 42⟩

/-- Effects oracle on which clearing the screen fails. -/
def fxNoClear : Effects := ⟨false, true, true, true, true, 42⟩

/-- Effects oracle on which launching the new command fails (and killing the
old child fails too, which `spawn` discards). -/
def fxNoLaunch : Effects := ⟨true, false, true, true, false, 42⟩

/-- A configuration with busy policy `Restart` and configured signal
`SIGUSR2`. -/
def cfgRestart : HandlerCfg := ⟨false, true, false, .Restart, some .SIGUSR2⟩

/-- A configuration with `once` set, busy policy `DoNothing` and configured
signal `SIGUSR1`. -/
def cfgOnce : HandlerCfg := ⟨true, false, false, .DoNothing, some .SIGUSR1⟩

/-- A minimal configuration: nothing set, no configured signal. -/
def cfgPlain : HandlerCfg := ⟨false, false, false, .DoNothing, none⟩

/-- A configuration with `clear_screen` set. -/
def cfgClear : HandlerCfg := ⟨false, true, true, .Queue, none⟩

/-- Witness for C1 at a concrete input: busy policy `Restart` with a running
grouped child. -/
theorem C1_witness :
    fxAll.clearOk = true ∧ fxAll.launchOk = true ∧
    fxAll.signalOk = true ∧ fxAll.waitOk = true ∧
    ((on_update_dispatch cfgRestart fxAll [] true (.grouped 7)).2.2 =
        policy_matrix cfgRestart [] true ∧
      (on_update_dispatch cfgRestart fxAll [] true (.grouped 7)).1 = .ok ()) :=
  ⟨rfl, rfl, rfl, rfl,
    C1_policy_matrix_dispatch cfgRestart fxAll [] true (.grouped 7) rfl rfl rfl rfl⟩

/-- C9: for every call to `on_update` with a running child and busy policy
`Signal` or `Restart`, the first process-control call of the dispatch is a
signal delivery of the configured signal when one was parsed from the
configuration, and `SIGTERM` otherwise — whatever the outcomes of the OS
primitives. -/
theorem C9_dispatch_signal_choice (cfg : HandlerCfg) (fx : Effects)
    (ops : List PathOp) (slot : ChildProcess)
    (h : cfg.on_busy_update = OnBusyUpdate.Signal ∨
      cfg.on_busy_update = OnBusyUpdate.Restart) :
    (on_update_dispatch cfg fx ops true slot).2.2.head? =
      some (Call.signal (cfg.signal.getD Signal.SIGTERM)) := by
  cases h with
  | inl h => simp [on_update_dispatch, h, signal_process]
  | inr h =>
    simp only [on_update_dispatch, h, signal_process, wait_on_process]
    cases slot.sendSignal fx with
    | error e => simp
    | ok u =>
      cases slot.waitOn fx with
      | error e => simp
      | ok u' =>
        rcases hsp : ExecHandler.spawn cfg fx ops slot with ⟨r, s2, t3⟩
        simp [hsp]

/-- Witness for C9 at a concrete input: policy `Restart`, configured signal
`SIGUSR2`, so the dispatch's first call is `signal SIGUSR2`. -/
theorem C9_witness :
    (cfgRestart.on_busy_update = OnBusyUpdate.Signal ∨
      cfgRestart.on_busy_update = OnBusyUpdate.Restart) ∧
    (on_update_dispatch cfgRestart fxNoLaunch [] true (.ungrouped 9)).2.2.head? =
      some (Call.signal (cfgRestart.signal.getD Signal.SIGTERM)) :=
  ⟨Or.inr rfl,
    C9_dispatch_signal_choice cfgRestart fxNoLaunch [] (.ungrouped 9) (Or.inr rfl)⟩

/-- C6: for every call to `on_update` with `once` set and all OS primitives
succeeding, after the policy dispatch the handler delivers the configured
signal exactly when one is configured (no `SIGTERM` fallback in this step),
then waits for the child to exit, then returns `Ok(false)`, on which the
watch loop does not continue. -/
theorem C6_once_terminates (cfg : HandlerCfg) (fx : Effects) (ops : List PathOp)
    (running : Bool) (slot : ChildProcess)
    (h0 : cfg.once = true) (h1 : fx.clearOk = true) (h2 : fx.launchOk = true)
    (h3 : fx.signalOk = true) (h4 : fx.waitOk = true) :
    (ExecHandler.on_update cfg fx ops running slot).1 = .ok false ∧
    loop_continues (ExecHandler.on_update cfg fx ops running slot).1 = false ∧
    (ExecHandler.on_update cfg fx ops running slot).2.2 =
      policy_matrix cfg ops running ++
        ((match cfg.signal with | some s => [Call.signal s] | none => []) ++ [Call.wait]) := by
  have hdis := dispatch_eq cfg fx ops running slot h1 h2 h3 h4
  simp only [ExecHandler.on_update, hdis, h0]
  rw [once_eq cfg fx _ h3 h4]
  exact ⟨rfl, rfl, rfl⟩

/-- Witness for C6 at a concrete input: `once` set, no running child, a
configured `SIGUSR1`. -/
theorem C6_witness :
    cfgOnce.once = true ∧ fxAll.clearOk = true ∧ fxAll.launchOk = true ∧
    fxAll.signalOk = true ∧ fxAll.waitOk = true ∧
    ((ExecHandler.on_update cfgOnce fxAll [] false .none).1 = .ok false ∧
      loop_continues (ExecHandler.on_update cfgOnce fxAll [] false .none).1 = false ∧
      (ExecHandler.on_update cfgOnce fxAll [] false .none).2.2 =
        policy_matrix cfgOnce [] false ++
          ((match cfgOnce.signal with | some s => [Call.signal s] | none => []) ++
            [Call.wait])) :=
  ⟨rfl, rfl, rfl, rfl, rfl,
    C6_once_terminates cfgOnce fxAll [] false .none rfl rfl rfl rfl rfl⟩

/-- C10: `ExecHandler::spawn` is not atomic on error.  First conjunct: when
clearing the screen fails, `spawn` returns `Err` before touching the slot —
the previous child is neither killed nor replaced.  Second conjunct: when
the command launch fails, `spawn` returns `Err` after having already killed
the old child (the `kill` call appears in the trace before the launch
attempt, its result discarded — the statement holds for every kill
outcome), while the slot still holds the old variant: it is neither reset to
`None` nor restored. -/
theorem C10_spawn_not_atomic :
    (∀ (cfg : HandlerCfg) (fx : Effects) (ops : List PathOp) (slot : ChildProcess),
      cfg.clear_screen = true → fx.clearOk = false →
      ExecHandler.spawn cfg fx ops slot = (.error .ClearScreen, slot, [Call.clear])) ∧
    (∀ (cfg : HandlerCfg) (fx : Effects) (ops : List PathOp) (slot : ChildProcess),
      (cfg.clear_screen = true → fx.clearOk = true) → fx.launchOk = false →
      ExecHandler.spawn cfg fx ops slot =
        (.error .SpawnFailed, slot,
          (if cfg.clear_screen then [Call.clear] else []) ++
            [Call.kill, Call.launch ops])) := by
  constructor
  · intro cfg fx ops slot hcs hcl
    simp [ExecHandler.spawn, hcs, hcl]
  · intro cfg fx ops slot hcs hln
    cases hscreen : cfg.clear_screen with
    | false => simp [ExecHandler.spawn, hscreen, hln]
    | true => simp [ExecHandler.spawn, hscreen, hcs hscreen, hln]

/-- Witness for C10 at concrete inputs: a clear-screen failure leaves an
ungrouped child untouched; a launch failure leaves the old (killed) variant
in the slot, with the kill traced before the launch attempt. -/
theorem C10_witness :
    ExecHandler.spawn cfgClear fxNoClear [] (.ungrouped 3) =
      (.error .ClearScreen, .ungrouped 3, [Call.clear]) ∧
    ExecHandler.spawn cfgPlain fxNoLaunch [] (.ungrouped 3) =
      (.error .SpawnFailed, .ungrouped 3, [Call.kill, Call.launch []]) :=
  ⟨C10_spawn_not_atomic.1 cfgClear fxNoClear [] (.ungrouped 3) rfl rfl,
    C10_spawn_not_atomic.2 cfgPlain fxNoLaunch [] (.ungrouped 3) (fun _ => rfl) rfl⟩
